import Mathlib

/-
  Verification of the cost-calculation core of the lcp-recommendations app
  (files `app/utils/currency.py`, `app/utils/frequency_parser.py`,
  `app/services/cost_calculator.py`).

  Modelling conventions:
  * Python floats are modelled as exact rationals (ℚ); `round(x, 2)` is
    modelled by `round2` below (round to an integer number of cents).
  * A Python function that may raise an exception is modelled as returning
    `Option`: `none` means an exception escaped, `some v` a normal return.
  * Python dictionaries appearing as price tables are modelled as
    association lists with exact string keys; dict insertion order
    (used by `category_totals`) is modelled by ordered association lists.
  * A value read with `dict.get` is modelled as an `Option` field
    (`none` = key absent or `None`).
  * Strings are treated at ASCII fidelity: `str.lower`/`str.upper` map
    ASCII letters, `str.strip` and `float()` strip ASCII whitespace, and
    `str.isdigit` / the regex class `\d` accept the ASCII digits.
-/

/-! ## Character and string helpers (Python `str` primitives) -/

/-- The characters stripped by Python `str.strip()` (ASCII fragment). -/
def isPySpace (c : Char) : Bool :=
  c = ' ' || c = '\t' || c = '\n' || c = '\r' || c = '\x0b' || c = '\x0c'

/-- Python `str.strip()` on a character list. -/
def pyStripL (l : List Char) : List Char :=
  ((l.dropWhile isPySpace).reverse.dropWhile isPySpace).reverse

/-- Numeric value of a list of ASCII digits. -/
def natValue (l : List Char) : Nat :=
  l.foldl (fun n c => 10 * n + (c.toNat - '0'.toNat)) 0

/-- Drop the literal word `pat` from the front of `l`
(`none` when `l` does not start with `pat`). -/
def dropLit : List Char → List Char → Option (List Char)
  | [], rest => some rest
  | _ :: _, [] => Option.none
  | p :: ps, c :: cs => if p = c then dropLit ps cs else Option.none

/-- Python substring containment `pat in l`. -/
def containsSeq (pat : List Char) (l : List Char) : Bool :=
  match dropLit pat l with
  | some _ => true
  | Option.none =>
    match l with
    | [] => false
    | _ :: t => containsSeq pat t

/-- Python `str.split(';')`: split at every `;`, keeping empty pieces. -/
def splitSemis : List Char → List (List Char)
  | [] => [[]]
  | c :: t =>
    if c = ';' then [] :: splitSemis t
    else
      match splitSemis t with
      | [] => [[c]]
      | h :: r => (c :: h) :: r

/-- Membership of a character (Python `c in s`). -/
def containsChar (c : Char) (l : List Char) : Bool := l.any (· = c)

/-- Remove every occurrence of a character (Python `str.replace(c, '')`). -/
def removeChar (c : Char) (l : List Char) : List Char := l.filter (· ≠ c)

/-! ## Regex machinery for `frequency_parser.py`

Each of the three `re.search` calls in `parse_frequency` is modelled by a
dedicated matcher.  For these particular patterns the greedy quantifiers
are deterministic (every quantified character class is disjoint from the
character that must follow it), so a match attempt at a position either
succeeds with the same groups Python produces or fails like Python does;
`re.search`'s scan for the leftmost matching position is the `search*`
recursion over suffixes. -/

/-- `\s*` : drop leading whitespace. -/
def skipSpaces (l : List Char) : List Char := l.dropWhile isPySpace

/-- `(\d+)` : one or more digits (greedy), with their numeric value. -/
def takeDigits1 (l : List Char) : Option (Nat × List Char) :=
  let ds := l.takeWhile Char.isDigit
  if ds = [] then Option.none
  else some (natValue ds, l.dropWhile Char.isDigit)

/-- `(\d+)?` : optional digit group (greedy). -/
def optDigits (l : List Char) : Option Nat × List Char :=
  let ds := l.takeWhile Char.isDigit
  if ds = [] then (Option.none, l)
  else (some (natValue ds), l.dropWhile Char.isDigit)

/-- `c?` : optionally drop one literal character. -/
def optChar (c : Char) : List Char → List Char
  | [] => []
  | x :: t => if x = c then t else x :: t

/-- Match `(\d+)\s*visits?\s*(?:every\s*)?(\d+)?\s*years?` at the head of
`l`, returning the two capture groups. -/
def matchVisitsAt (l : List Char) : Option (Nat × Option Nat) :=
  match takeDigits1 l with
  | Option.none => Option.none
  | some (n, l1) =>
    match dropLit "visit".toList (skipSpaces l1) with
    | Option.none => Option.none
    | some l2 =>
      let l3 := skipSpaces (optChar 's' l2)
      let l4 :=
        match dropLit "every".toList l3 with
        | some r => skipSpaces r
        | Option.none => l3
      let (y, l5) := optDigits l4
      match dropLit "year".toList (skipSpaces l5) with
      | Option.none => Option.none
      | some _ => some (n, y)

/-- `re.search` for the visits pattern: leftmost matching position. -/
def searchVisits : List Char → Option (Nat × Option Nat)
  | [] => matchVisitsAt []
  | c :: t =>
    match matchVisitsAt (c :: t) with
    | some r => some r
    | Option.none => searchVisits t

/-- Match `(\d+)\s*(?:times?|x)\s*(?:per|a|/)\s*year` at the head of `l`. -/
def matchTimesAt (l : List Char) : Option Nat :=
  match takeDigits1 l with
  | Option.none => Option.none
  | some (n, l1) =>
    let l2 := skipSpaces l1
    let l3? : Option (List Char) :=
      match dropLit "time".toList l2 with
      | some r => some (optChar 's' r)
      | Option.none =>
        match l2 with
        | 'x' :: r => some r
        | _ => Option.none
    match l3? with
    | Option.none => Option.none
    | some l3 =>
      let l4 := skipSpaces l3
      let l5? : Option (List Char) :=
        match dropLit "per".toList l4 with
        | some r => some r
        | Option.none =>
          match l4 with
          | 'a' :: r => some r
          | '/' :: r => some r
          | _ => Option.none
      match l5? with
      | Option.none => Option.none
      | some l5 =>
        match dropLit "year".toList (skipSpaces l5) with
        | Option.none => Option.none
        | some _ => some n

/-- `re.search` for the times-per-year pattern. -/
def searchTimes : List Char → Option Nat
  | [] => matchTimesAt []
  | c :: t =>
    match matchTimesAt (c :: t) with
    | some r => some r
    | Option.none => searchTimes t

/-- Match `every\s*(\d+)(?:-(\d+))?\s*years?` at the head of `l`. -/
def matchEveryAt (l : List Char) : Option (Nat × Option Nat) :=
  match dropLit "every".toList l with
  | Option.none => Option.none
  | some l1 =>
    match takeDigits1 (skipSpaces l1) with
    | Option.none => Option.none
    | some (lo, l2) =>
      let (hi, l3) : Option Nat × List Char :=
        match l2 with
        | '-' :: r =>
          match takeDigits1 r with
          | some (m, r2) => (some m, r2)
          | Option.none => (Option.none, l2)
        | _ => (Option.none, l2)
      match dropLit "year".toList (skipSpaces l3) with
      | Option.none => Option.none
      | some _ => some (lo, hi)

/-- `re.search` for the every-N-years pattern. -/
def searchEvery : List Char → Option (Nat × Option Nat)
  | [] => matchEveryAt []
  | c :: t =>
    match matchEveryAt (c :: t) with
    | some r => some r
    | Option.none => searchEvery t

/-! ## `frequency_parser.py` -/

/-- The `FREQUENCY_MULTIPLIERS` table, in source order.  The float
literals `0.333333` and `0.111111` are the exact decimals written in the
source, not 1/3 and 1/9. -/
def FREQUENCY_MULTIPLIERS : List (String × ℚ) :=
  [("yearly", 1), ("1x/year", 1), ("1 time per year", 1),
   ("2x/year", 2), ("2 times per year", 2), ("3 times per year", 3),
   ("4 times per year", 4), ("12 times a year", 12), ("24 times a year", 24),
   ("monthly", 12), ("every 2 years", 1/2), ("every 3 years", 333333/1000000),
   ("every 5 years", 1/5), ("every 8-10 years", 111111/1000000),
   ("one time", 0), ("one-time", 0)]

/-- First table entry whose key occurs as a substring (source loop
`for pattern, mult in FREQUENCY_MULTIPLIERS.items()`). -/
def tableFindAux : List (String × ℚ) → List Char → Option ℚ
  | [], _ => Option.none
  | (k, m) :: rest, l =>
    if containsSeq k.toList l then some m else tableFindAux rest l

/-- `parse_frequency` from `app/utils/frequency_parser.py`.
`none` models a raised exception (a `ZeroDivisionError` when a matched
period is the digit string "0"). -/
def parse_frequency (freq_str : String) : Option (Bool × ℚ) :=
  if freq_str = "" then some (false, 0)
  else
    let freq_lower := pyStripL (freq_str.toList.map Char.toLower)
    if containsSeq "one time".toList freq_lower ||
       containsSeq "one-time".toList freq_lower then
      some (false, 1)
    else
      match searchVisits freq_lower with
      | some (visits, yearsOpt) =>
        let years := yearsOpt.getD 1
        if years = 0 then Option.none
        else some (true, (visits : ℚ) / (years : ℚ))
      | Option.none =>
        match searchTimes freq_lower with
        | some n => some (true, (n : ℚ))
        | Option.none =>
          match searchEvery freq_lower with
          | some (lo, some hi) =>
            let midpoint : ℚ := ((lo : ℚ) + (hi : ℚ)) / 2
            if midpoint = 0 then Option.none else some (true, 1 / midpoint)
          | some (lo, Option.none) =>
            if lo = 0 then Option.none else some (true, 1 / (lo : ℚ))
          | Option.none =>
            match tableFindAux FREQUENCY_MULTIPLIERS freq_lower with
            | some mult => if mult = 0 then some (false, 1) else some (true, mult)
            | Option.none => some (true, 1)

/-! ## `currency.py` : `parse_cost_string` and the Python `float()` builtin -/

/-- A digit part of a Python float literal: `digit (["_"] digit)*`.
Returns the digits collected and the unconsumed rest. -/
def digitRunGo : List Char → List Char → List Char × List Char
  | acc, '_' :: c :: rest =>
    if c.isDigit then digitRunGo (c :: acc) rest else (acc.reverse, '_' :: c :: rest)
  | acc, c :: rest =>
    if c.isDigit then digitRunGo (c :: acc) rest else (acc.reverse, c :: rest)
  | acc, [] => (acc.reverse, [])

/-- Parse a Python `digitpart` (at least one digit, underscores allowed
between digits). -/
def digitRun (l : List Char) : Option (List Char × List Char) :=
  match l with
  | c :: rest => if c.isDigit then some (digitRunGo [c] rest) else Option.none
  | [] => Option.none

/-- Value of a fractional digit string (`ds` after the decimal point). -/
def fracValue (ds : List Char) : ℚ := (natValue ds : ℚ) / 10 ^ ds.length

/-- Exponent digits of a float literal (must consume the whole rest). -/
def expDigits (base : ℚ) (neg : Bool) (l : List Char) : Option ℚ :=
  match digitRun l with
  | some (ds, []) =>
    some (if neg then base / 10 ^ natValue ds else base * 10 ^ natValue ds)
  | _ => Option.none

/-- Optional exponent `([eE] [+-]? digitpart)` ending the literal. -/
def withExp (base : ℚ) (rest : List Char) : Option ℚ :=
  match rest with
  | [] => some base
  | 'e' :: '+' :: r => expDigits base false r
  | 'e' :: '-' :: r => expDigits base true r
  | 'e' :: r => expDigits base false r
  | 'E' :: '+' :: r => expDigits base false r
  | 'E' :: '-' :: r => expDigits base true r
  | 'E' :: r => expDigits base false r
  | _ => Option.none

/-- Unsigned Python float literal: `digitpart [. [digitpart]] [exp]` or
`. digitpart [exp]`. -/
def pyFloatUnsigned (l : List Char) : Option ℚ :=
  match l with
  | '.' :: rest =>
    match digitRun rest with
    | some (fs, rest2) => withExp (fracValue fs) rest2
    | Option.none => Option.none
  | _ =>
    match digitRun l with
    | Option.none => Option.none
    | some (ds, rest) =>
      match rest with
      | '.' :: rest2 =>
        match digitRun rest2 with
        | some (fs, rest3) => withExp ((natValue ds : ℚ) + fracValue fs) rest3
        | Option.none => withExp (natValue ds : ℚ) rest2
      | _ => withExp (natValue ds : ℚ) rest

/-- The Python `float(str)` builtin on finite decimal input: strips
whitespace, then an optional sign and a float literal covering the whole
string.  `none` models a `ValueError`.  (The non-finite spellings
`inf`/`nan` have no rational value and are out of scope here: no value
reaching `float` in this code base under a verified claim is one of
them.) -/
def pyFloat (l : List Char) : Option ℚ :=
  match pyStripL l with
  | '+' :: rest => pyFloatUnsigned rest
  | '-' :: rest => (pyFloatUnsigned rest).map (fun q => -q)
  | rest => pyFloatUnsigned rest

/-- A value held in the `cost` field of an item dictionary: absent (or
`None`), a number, or a string. -/
inductive CostValue where
  | absent : CostValue
  | num : ℚ → CostValue
  | str : String → CostValue
deriving DecidableEq, Repr

/-- Python truthiness of a cost field (`if item.get('cost'):`). -/
def costTruthy : CostValue → Bool
  | CostValue.absent => false
  | CostValue.num q => q ≠ 0
  | CostValue.str s => s ≠ ""

/-- Python `str.isdigit()` (ASCII digits): nonempty and all digits. -/
def pyIsDigit (l : List Char) : Bool := !l.isEmpty && l.all Char.isDigit

/-- One part of the semicolon branch of `parse_cost_string`:
`cleaned = p.strip().replace(',', '').replace('$', '')`, included in the
sum only if `cleaned and cleaned.replace('.', '').replace('-', '').isdigit()`.
`none` models the uncaught `ValueError` that `float(cleaned)` raises when
the filter admits a string that is not a float literal. -/
def costPartValue (p : List Char) : Option ℚ :=
  let cleaned := removeChar '$' (removeChar ',' (pyStripL p))
  if !cleaned.isEmpty && pyIsDigit (removeChar '-' (removeChar '.' cleaned)) then
    pyFloat cleaned
  else
    some 0

/-- `parse_cost_string` from `app/utils/currency.py`.  `none` models a
raised exception. -/
def parse_cost_string (cost_str : CostValue) : Option ℚ :=
  match cost_str with
  | CostValue.absent => some 0
  | CostValue.num q => some q
  | CostValue.str s =>
    let t := pyStripL s.toList
    if t = [] then some 0
    else if containsChar ';' t then
      ((splitSemis t).mapM costPartValue).map (fun vs => vs.sum)
    else
      let cleaned := pyStripL (removeChar '$' (removeChar ',' t))
      match pyFloat cleaned with
      | some v => some v
      | Option.none => some 0

/-! ## `cost_calculator.py` : data model -/

/-- A line item as produced by `parse_master_items` (a Python dict).
Fields read through `dict.get` in the cost calculator are `Option`-typed;
`none` models an absent key. -/
structure Item where
  category : Option String := Option.none
  item : String := ""
  subcategory : String := ""
  service_description : String := ""
  code_type : Option String := Option.none
  code : Option String := Option.none
  cost : CostValue := CostValue.absent
  frequency : Option String := Option.none
  source : String := ""
  rationale : String := ""
deriving DecidableEq, Repr

/-- The patient-info fields read by the cost calculator.  `none` models an
absent key or a `None` value. -/
structure PatientInfo where
  patient_name : String := ""
  life_expectancy : Option ℚ := Option.none
  geographic_multiplier : Option ℚ := Option.none
deriving DecidableEq, Repr

/-- Per-item cost result. -/
structure CostResult where
  unit_cost : ℚ
  annual_cost : ℚ
  one_time_cost : ℚ
deriving DecidableEq, Repr

/-- Python `round(x, 2)` (to a whole number of cents; the claims verified
here never hit a half-cent tie, where Python rounds to even). -/
def round2 (q : ℚ) : ℚ := (round (q * 100) : ℤ) / 100

/-- `geo_mult = float(patient_info.get('geographic_multiplier', 1.0) or 1.0)`:
missing, `None` and `0` all fall back to `1.0`. -/
def geoMult (p : PatientInfo) : ℚ :=
  match p.geographic_multiplier with
  | Option.none => 1
  | some q => if q = 0 then 1 else q

/-- `float(patient_info.get('life_expectancy', 0) or 0)`. -/
def lifeExp (p : PatientInfo) : ℚ := p.life_expectancy.getD 0

/-- Exact-key price lookup with zero default
(`pfr_lookup.get(cpt, 0.0)`). -/
def priceOf (tbl : List (String × ℚ)) (cpt : List Char) : ℚ :=
  (List.lookup (String.mk cpt) tbl).getD 0

/-- `lookup_cost` from `app/services/cost_calculator.py`. -/
def lookup_cost (code : String) (code_type : String)
    (pfr_lookup apc_lookup : List (String × ℚ)) (geo_mult : ℚ) : ℚ :=
  if code = "" then 0
  else
    let code_str := pyStripL code.toList
    let code_type_str :=
      if code_type = "" then [] else pyStripL (code_type.toList.map Char.toUpper)
    let codes := ((splitSemis code_str).map pyStripL).filter (fun c => c ≠ [])
    codes.foldl
      (fun total cpt =>
        let pfr_price := priceOf pfr_lookup cpt
        let apc_price := priceOf apc_lookup cpt
        if containsSeq "APC".toList code_type_str ||
           containsSeq "FACILITY".toList code_type_str then
          total + (pfr_price + apc_price * geo_mult)
        else
          total + pfr_price)
      0

/-- `calculate_item_costs` from `app/services/cost_calculator.py`.
`none` models a raised exception (propagated from `parse_cost_string` or
`parse_frequency`). -/
def calculate_item_costs (item : Item) (patient_info : PatientInfo)
    (pfr_lookup apc_lookup : List (String × ℚ)) : Option CostResult :=
  let geo_mult := geoMult patient_info
  let baseOpt :=
    if costTruthy item.cost then parse_cost_string item.cost
    else
      some (lookup_cost (item.code.getD "") (item.code_type.getD "")
        pfr_lookup apc_lookup geo_mult)
  match baseOpt with
  | Option.none => Option.none
  | some base_cost =>
    match parse_frequency (item.frequency.getD "") with
    | Option.none => Option.none
    | some (is_annual, multiplier) =>
      if is_annual then
        some ⟨base_cost, round2 (base_cost * multiplier), 0⟩
      else
        some ⟨base_cost, 0,
          if multiplier ≠ 0 then round2 (base_cost * multiplier) else base_cost⟩

/-! ## `cost_calculator.py` : aggregation -/

/-- An item with its computed cost fields attached
(`{**item, 'unit_cost': ..., 'annual_cost': ..., 'one_time_cost': ...}`). -/
structure CalculatedItem where
  base : Item
  unit_cost : ℚ
  annual_cost : ℚ
  one_time_cost : ℚ
deriving DecidableEq, Repr

/-- One entry of `category_totals`. -/
structure CategoryTotal where
  annual_cost : ℚ
  one_time_cost : ℚ
  items : List CalculatedItem
deriving DecidableEq, Repr

/-- The grand-totals record returned under the `'totals'` key. -/
structure GrandTotals where
  total_annual : ℚ
  total_one_time : ℚ
  lifetime_annual : ℚ
  grand_total : ℚ
  life_expectancy : ℚ
deriving DecidableEq, Repr

/-- The full result of `calculate_all_costs`. -/
structure CostSummary where
  items : List CalculatedItem
  category_totals : List (String × CategoryTotal)
  totals : GrandTotals
deriving DecidableEq, Repr

/-- The input of `calculate_all_costs` (the dict built by
`parse_workbook`). -/
structure WorkbookData where
  patient_info : PatientInfo
  items : List Item
  pfr_lookup : List (String × ℚ)
  apc_lookup : List (String × ℚ)
deriving DecidableEq, Repr

/-- The category key used for an item:
`item.get('category', 'Uncategorized')` — the default applies only when
the key is absent, not when its value is the empty string. -/
def categoryKey (item : Item) : String := item.category.getD "Uncategorized"

/-- Add one computed item to `category_totals`: create the entry on first
sight (at the end, matching dict insertion order), then accumulate the
sums and append the item. -/
def addToCat (cts : List (String × CategoryTotal)) (cat : String)
    (a o : ℚ) (ci : CalculatedItem) : List (String × CategoryTotal) :=
  match cts with
  | [] => [(cat, ⟨a, o, [ci]⟩)]
  | (k, t) :: rest =>
    if k = cat then
      (k, ⟨t.annual_cost + a, t.one_time_cost + o, t.items ++ [ci]⟩) :: rest
    else
      (k, t) :: addToCat rest cat a o ci

/-- The `for item in items` loop of `calculate_all_costs`, threading the
`calculated_items` and `category_totals` accumulators.  `none` models an
exception escaping from `calculate_item_costs`. -/
def processItems (p : PatientInfo) (pfr apc : List (String × ℚ)) :
    List Item → List CalculatedItem × List (String × CategoryTotal) →
    Option (List CalculatedItem × List (String × CategoryTotal))
  | [], acc => some acc
  | item :: rest, (cis, cts) =>
    match calculate_item_costs item p pfr apc with
    | Option.none => Option.none
    | some costs =>
      let ci : CalculatedItem :=
        ⟨item, costs.unit_cost, costs.annual_cost, costs.one_time_cost⟩
      processItems p pfr apc rest
        (cis ++ [ci],
         addToCat cts (categoryKey item) costs.annual_cost costs.one_time_cost ci)

/-- `sum(ct['annual_cost'] for ct in category_totals.values())`. -/
def catAnnualSum (cts : List (String × CategoryTotal)) : ℚ :=
  (cts.map (fun kv => kv.2.annual_cost)).sum

/-- `sum(ct['one_time_cost'] for ct in category_totals.values())`. -/
def catOneTimeSum (cts : List (String × CategoryTotal)) : ℚ :=
  (cts.map (fun kv => kv.2.one_time_cost)).sum

/-- Sum of `annual_cost` over the per-item results. -/
def itemAnnualSum (cis : List CalculatedItem) : ℚ :=
  (cis.map (fun ci => ci.annual_cost)).sum

/-- Sum of `one_time_cost` over the per-item results. -/
def itemOneTimeSum (cis : List CalculatedItem) : ℚ :=
  (cis.map (fun ci => ci.one_time_cost)).sum

/-- `calculate_all_costs` from `app/services/cost_calculator.py`. -/
def calculate_all_costs (wd : WorkbookData) : Option CostSummary :=
  match processItems wd.patient_info wd.pfr_lookup wd.apc_lookup wd.items ([], []) with
  | Option.none => Option.none
  | some (calculated_items, category_totals) =>
    let life_expectancy := lifeExp wd.patient_info
    let total_annual := catAnnualSum category_totals
    let total_one_time := catOneTimeSum category_totals
    let lifetime_annual := total_annual * life_expectancy
    let grand_total := lifetime_annual + total_one_time
    some ⟨calculated_items, category_totals,
      ⟨round2 total_annual, round2 total_one_time,
       round2 lifetime_annual, round2 grand_total, life_expectancy⟩⟩

set_option maxRecDepth 100000

/-! ## Supporting lemmas -/

/-- A value found by the table scan is one of the table's multipliers. -/
theorem tableFindAux_mem (tbl : List (String × ℚ)) (l : List Char) (m : ℚ)
    (h : tableFindAux tbl l = some m) : m ∈ tbl.map Prod.snd := by
  induction tbl with
  | nil => simp [tableFindAux] at h
  | cons kv rest ih =>
    rw [tableFindAux] at h
    split at h
    · simp only [Option.some.injEq] at h
      subst h
      simp
    · simpa using Or.inr (by simpa using ih h)

/-- Folding `+ f c` over a list starting from `init` is `init` plus the
sum of the images. -/
theorem foldl_add_map_sum {α : Type} (f : α → ℚ) (l : List α) (init : ℚ) :
    l.foldl (fun t c => t + f c) init = init + (l.map f).sum := by
  induction l generalizing init with
  | nil => simp
  | cons c t ih => simp [ih, add_assoc]

/-- Every multiplier in the `FREQUENCY_MULTIPLIERS` table is
non-negative. -/
theorem freq_table_nonneg : ∀ kv ∈ FREQUENCY_MULTIPLIERS, 0 ≤ kv.2 := by
  with_unfolding_all decide

/-- Claim C10: for every input string, a normally returned multiplier is
non-negative, and whenever the returned `is_annual` flag is `false` the
multiplier is exactly 0 or exactly 1. -/
theorem parse_frequency_multiplier_invariant (s : String) (r : Bool × ℚ)
    (h : parse_frequency s = some r) :
    0 ≤ r.2 ∧ (r.1 = false → r.2 = 0 ∨ r.2 = 1) := by
  simp only [parse_frequency] at h
  split at h
  · simp only [Option.some.injEq] at h
    subst h
    exact ⟨le_refl 0, fun _ => Or.inl rfl⟩
  · split at h
    · simp only [Option.some.injEq] at h
      subst h
      exact ⟨zero_le_one, fun _ => Or.inr rfl⟩
    · split at h
      · -- visits pattern
        split at h
        · exact absurd h (by simp)
        · simp only [Option.some.injEq] at h
          subst h
          refine ⟨div_nonneg (Nat.cast_nonneg _) (Nat.cast_nonneg _), ?_⟩
          intro hfalse
          simp at hfalse
      · split at h
        · -- times pattern
          simp only [Option.some.injEq] at h
          subst h
          refine ⟨Nat.cast_nonneg _, ?_⟩
          intro hfalse
          simp at hfalse
        · split at h
          · -- every-range pattern
            split at h
            · exact absurd h (by simp)
            · simp only [Option.some.injEq] at h
              subst h
              refine ⟨by positivity, ?_⟩
              intro hfalse
              simp at hfalse
          · -- every-single pattern
            split at h
            · exact absurd h (by simp)
            · simp only [Option.some.injEq] at h
              subst h
              refine ⟨by positivity, ?_⟩
              intro hfalse
              simp at hfalse
          · split at h
            · -- table entry
              rename_i mult heq
              have hmem := tableFindAux_mem _ _ _ heq
              have hnn : 0 ≤ mult := by
                have := freq_table_nonneg
                simp only [List.mem_map] at hmem
                obtain ⟨kv, hkv, hkv2⟩ := hmem
                exact hkv2 ▸ this kv hkv
              split at h
              · simp only [Option.some.injEq] at h
                subst h
                exact ⟨zero_le_one, fun _ => Or.inr rfl⟩
              · simp only [Option.some.injEq] at h
                subst h
                refine ⟨hnn, ?_⟩
                intro hfalse
                simp at hfalse
            · -- default
              simp only [Option.some.injEq] at h
              subst h
              exact ⟨zero_le_one, fun _ => Or.inr rfl⟩

/-- Witness for C10 at the concrete input `"2x/year"`. -/
theorem parse_frequency_multiplier_invariant_witness :
    parse_frequency "2x/year" = some (true, 2) ∧
    (0 ≤ ((true, (2 : ℚ)) : Bool × ℚ).2 ∧
      (((true, (2 : ℚ)) : Bool × ℚ).1 = false →
        ((true, (2 : ℚ)) : Bool × ℚ).2 = 0 ∨ ((true, (2 : ℚ)) : Bool × ℚ).2 = 1)) :=
  ⟨by with_unfolding_all decide,
   parse_frequency_multiplier_invariant "2x/year" (true, 2)
     (by with_unfolding_all decide)⟩

/-- A nonempty frequency string on which none of the recognizers of
`parse_frequency` fires: no one-time substring, none of the three regex
searches matches, and no table key occurs as a substring. -/
def noRecognizerMatch (s : String) : Bool :=
  let freq_lower := pyStripL (s.toList.map Char.toLower)
  !containsSeq "one time".toList freq_lower &&
  !containsSeq "one-time".toList freq_lower &&
  (searchVisits freq_lower).isNone &&
  (searchTimes freq_lower).isNone &&
  (searchEvery freq_lower).isNone &&
  (tableFindAux FREQUENCY_MULTIPLIERS freq_lower).isNone

/-- Claim C6: the frequency normalizer returns the documented pairs on
the six reference inputs, and any nonempty input matched by none of the
recognizers returns the default `(true, 1.0)`. -/
theorem parse_frequency_reference_values :
    parse_frequency "2x/year" = some (true, 2) ∧
    parse_frequency "every 5 years" = some (true, 1/5) ∧
    parse_frequency "every 8-10 years" = some (true, 1/9) ∧
    parse_frequency "one time" = some (false, 1) ∧
    parse_frequency "" = some (false, 0) ∧
    parse_frequency "24 visits every 5 years" = some (true, 24/5) ∧
    ∀ s : String, s ≠ "" → noRecognizerMatch s = true →
      parse_frequency s = some (true, 1) := by
  refine ⟨by with_unfolding_all decide, by with_unfolding_all decide,
    by with_unfolding_all decide, by with_unfolding_all decide,
    by with_unfolding_all decide, by with_unfolding_all decide, ?_⟩
  intro s hne h
  simp only [noRecognizerMatch, Bool.and_eq_true, Bool.not_eq_true',
    Option.isNone_iff_eq_none] at h
  obtain ⟨⟨⟨⟨⟨h1, h2⟩, h3⟩, h4⟩, h5⟩, h6⟩ := h
  simp only [parse_frequency, if_neg hne, h1, h2, h3, h4, h5, h6,
    Bool.or_self, Bool.false_eq_true, if_false]

/-- Witness for the quantified part of C6 at the concrete input
`"as needed"`. -/
theorem parse_frequency_reference_values_witness :
    ("as needed" ≠ "" ∧ noRecognizerMatch "as needed" = true) ∧
    parse_frequency "as needed" = some (true, 1) :=
  ⟨⟨by decide, by with_unfolding_all decide⟩,
   parse_frequency_reference_values.2.2.2.2.2.2 "as needed" (by decide)
     (by with_unfolding_all decide)⟩

/-- Claim C1 (failing input): `parse_cost_string("1.2.3; 4")` raises an
uncaught `ValueError`.  The semicolon branch's filter only checks that the
part is made of digits after removing every `.` and `-`, so the
multi-dot part `"1.2.3"` passes the filter, and `float("1.2.3")` then
raises with no surrounding `try`.  The claim's promise that every
malformed part contributes 0 and the call returns normally fails here. -/
theorem parse_cost_string_raises_on_multidot :
    parse_cost_string (CostValue.str "1.2.3; 4") = Option.none ∧
    costPartValue "1.2.3".toList = Option.none ∧
    costPartValue " 4".toList = some 4 := by
  refine ⟨?_, ?_, ?_⟩ <;> with_unfolding_all decide

/-- Claim C2 (counterexample): an item with unit cost 100 and an empty
frequency string gets `one_time_cost = 100`, not 0 — the
`round(...) if multiplier else base_cost` fallback returns the raw unit
cost when the multiplier is 0, so the item is not treated as zero-cost. -/
theorem empty_frequency_not_zero_cost_cex :
    calculate_item_costs
      { cost := CostValue.num 100, frequency := some "" } {} [] [] =
      some ⟨100, 0, 100⟩ ∧ (100 : ℚ) ≠ 0 := by
  refine ⟨?_, ?_⟩ <;> with_unfolding_all decide

/-- Claim C2 (amended): for an item whose frequency is empty or absent the
normalizer returns `(false, 0.0)`, and the item cost calculator then
produces `annual_cost = 0` and `one_time_cost = unit_cost` (so the item is
zero-cost exactly when its unit cost is zero). -/
theorem empty_frequency_cost_behavior (item : Item) (p : PatientInfo)
    (pfr apc : List (String × ℚ)) (h : item.frequency.getD "" = "") :
    parse_frequency (item.frequency.getD "") = some (false, 0) ∧
    ∀ r, calculate_item_costs item p pfr apc = some r →
      r.annual_cost = 0 ∧ r.one_time_cost = r.unit_cost := by
  have hpf : parse_frequency (item.frequency.getD "") = some (false, 0) := by
    rw [h]
    with_unfolding_all rfl
  refine ⟨hpf, ?_⟩
  intro r hr
  simp only [calculate_item_costs, hpf] at hr
  split at hr
  · exact absurd hr (by simp)
  · simp only [ne_eq, not_true_eq_false, if_false, Bool.false_eq_true,
      Option.some.injEq] at hr
    subst hr
    exact ⟨rfl, rfl⟩

/-- Witness for C2 (amended) at an item with absent frequency and unit
cost 7. -/
theorem empty_frequency_cost_behavior_witness :
    (({ cost := CostValue.num 7 } : Item).frequency.getD "" = "" ∧
      calculate_item_costs { cost := CostValue.num 7 } {} [] [] =
        some ⟨7, 0, 7⟩) ∧
    parse_frequency (({ cost := CostValue.num 7 } : Item).frequency.getD "") =
      some (false, 0) ∧
    (⟨7, 0, 7⟩ : CostResult).annual_cost = 0 ∧
    (⟨7, 0, 7⟩ : CostResult).one_time_cost = (⟨7, 0, 7⟩ : CostResult).unit_cost := by
  refine ⟨⟨rfl, by with_unfolding_all decide⟩, ?_⟩
  have h := empty_frequency_cost_behavior { cost := CostValue.num 7 } {} [] [] rfl
  exact ⟨h.1, h.2 ⟨7, 0, 7⟩ (by with_unfolding_all decide)⟩

/-- Claim C3 (counterexample): an item whose cost field holds the number
0 is present and non-empty, yet the calculator falls through to the code
tables (`if item.get('cost'):` tests truthiness, and `0` is falsy): with
`pfr = {"A": 100}` the unit cost is 100, not `parse_cost(0) = 0`, and the
result depends on the tables. -/
theorem zero_number_cost_consults_tables_cex :
    calculate_item_costs
      { cost := CostValue.num 0, code := some "A", frequency := some "one time" }
      {} [("A", 100)] [] = some ⟨100, 0, 100⟩ ∧
    parse_cost_string (CostValue.num 0) = some 0 ∧ (100 : ℚ) ≠ (0 : ℚ) := by
  refine ⟨?_, ?_, ?_⟩ <;> with_unfolding_all decide

/-- Claim C3 (amended): for every item whose raw cost field is truthy (a
non-empty string, or a non-zero number), the unit cost is taken from
`parse_cost_string` and the result is independent of both price tables
and of the item's `code` and `code_type`. -/
theorem truthy_cost_precedence (item : Item) (p : PatientInfo)
    (pfr apc pfr' apc' : List (String × ℚ)) (c ct : Option String)
    (h : costTruthy item.cost = true) :
    calculate_item_costs item p pfr apc =
      calculate_item_costs { item with code := c, code_type := ct } p pfr' apc' ∧
    ∀ r, calculate_item_costs item p pfr apc = some r →
      parse_cost_string item.cost = some r.unit_cost := by
  constructor
  · simp only [calculate_item_costs, h, if_true]
  · intro r hr
    simp only [calculate_item_costs, h, if_true] at hr
    split at hr
    · exact absurd hr (by simp)
    · rename_i base hbase
      split at hr
      · exact absurd hr (by simp)
      · rename_i pr _
        obtain ⟨is_annual, multiplier⟩ := pr
        split at hr <;>
          · simp only [Option.some.injEq] at hr
            subst hr
            exact hbase
  
/-- Witness for C3 (amended) at an item with string cost `"100"`. -/
theorem truthy_cost_precedence_witness :
    (costTruthy (CostValue.str "100") = true ∧
      calculate_item_costs
        { cost := CostValue.str "100", frequency := some "2x/year" }
        {} [] [] = some ⟨100, 200, 0⟩) ∧
    (calculate_item_costs
        { cost := CostValue.str "100", frequency := some "2x/year" } {} [] [] =
      calculate_item_costs
        { cost := CostValue.str "100", frequency := some "2x/year",
          code := some "Z", code_type := some "APC" } {} [("Z", 9)] [("Z", 9)]) ∧
    parse_cost_string (CostValue.str "100") = some (100 : ℚ) := by
  refine ⟨⟨rfl, by with_unfolding_all decide⟩, ?_⟩
  have h := truthy_cost_precedence
    { cost := CostValue.str "100", frequency := some "2x/year" }
    {} [] [] [("Z", 9)] [("Z", 9)] (some "Z") (some "APC") rfl
  exact ⟨h.1, by
    have := h.2 ⟨100, 200, 0⟩ (by with_unfolding_all decide)
    exact this⟩

/-- Claim C5 (counterexample): the item `cost = 100`,
`frequency = "0x/year"` yields `unit_cost = 100` with both `annual_cost`
and `one_time_cost` zero (the times-per-year regex accepts a zero count,
and `100 × 0` rounds to 0), violating "exactly one non-zero unless
unit_cost is zero". -/
theorem zero_multiplier_not_exactly_one_cex :
    calculate_item_costs
      { cost := CostValue.num 100, frequency := some "0x/year" } {} [] [] =
      some ⟨100, 0, 0⟩ ∧ (100 : ℚ) ≠ 0 := by
  refine ⟨?_, ?_⟩ <;> with_unfolding_all decide

/-- Claim C5 (amended): at most one of `annual_cost`/`one_time_cost` is
non-zero; both are zero only when `unit_cost` is zero or when
`unit_cost × multiplier` rounds to zero cents (e.g. a zero multiplier, or
a product below half a cent). -/
theorem cost_result_at_most_one_nonzero (item : Item) (p : PatientInfo)
    (pfr apc : List (String × ℚ)) (r : CostResult) (pr : Bool × ℚ)
    (hr : calculate_item_costs item p pfr apc = some r)
    (hp : parse_frequency (item.frequency.getD "") = some pr) :
    (r.annual_cost = 0 ∨ r.one_time_cost = 0) ∧
    ((r.annual_cost = 0 ∧ r.one_time_cost = 0) →
      r.unit_cost = 0 ∨ round2 (r.unit_cost * pr.2) = 0) := by
  simp only [calculate_item_costs, hp] at hr
  split at hr
  · exact absurd hr (by simp)
  · obtain ⟨is_annual, multiplier⟩ := pr
    split at hr
    · simp only [Option.some.injEq] at hr
      subst hr
      exact ⟨Or.inr rfl, fun ⟨ha, _⟩ => Or.inr ha⟩
    · split at hr
      · simp only [Option.some.injEq] at hr
        subst hr
        exact ⟨Or.inl rfl, fun ⟨_, ho⟩ => Or.inr ho⟩
      · rename_i hmz
        simp only [ne_eq, not_not] at hmz
        simp only [Option.some.injEq] at hr
        subst hr
        exact ⟨Or.inl rfl, fun ⟨_, ho⟩ => Or.inl ho⟩

/-- Witness for C5 (amended) at the item `cost = 100`,
`frequency = "one time"`. -/
theorem cost_result_at_most_one_nonzero_witness :
    (calculate_item_costs
        { cost := CostValue.num 100, frequency := some "one time" } {} [] [] =
      some ⟨100, 0, 100⟩ ∧
     parse_frequency "one time" = some (false, 1)) ∧
    (((⟨100, 0, 100⟩ : CostResult).annual_cost = 0 ∨
        (⟨100, 0, 100⟩ : CostResult).one_time_cost = 0) ∧
     (((⟨100, 0, 100⟩ : CostResult).annual_cost = 0 ∧
        (⟨100, 0, 100⟩ : CostResult).one_time_cost = 0) →
       (⟨100, 0, 100⟩ : CostResult).unit_cost = 0 ∨
         round2 ((⟨100, 0, 100⟩ : CostResult).unit_cost * ((false, (1 : ℚ)).2)) = 0)) := by
  refine ⟨⟨by with_unfolding_all decide, by with_unfolding_all decide⟩, ?_⟩
  exact cost_result_at_most_one_nonzero
    { cost := CostValue.num 100, frequency := some "one time" } {} [] []
    ⟨100, 0, 100⟩ (false, 1)
    (by with_unfolding_all decide) (by with_unfolding_all decide)

/-- The code segments priced by `lookup_cost`: split on `;`, trim, drop
empty segments (stated as in the spec, for comparison with the source
fold). -/
def codeSegments (code : String) : List (List Char) :=
  if code = "" then []
  else ((splitSemis (pyStripL code.toList)).map pyStripL).filter (fun c => c ≠ [])

/-- Whether the code type selects the facility pricing path: its
uppercased, stripped form contains `"APC"` or `"FACILITY"`. -/
def isFacilityType (code_type : String) : Bool :=
  let ct := if code_type = "" then [] else pyStripL (code_type.toList.map Char.toUpper)
  containsSeq "APC".toList ct || containsSeq "FACILITY".toList ct

/-- Per-segment contribution as the spec states it:
`pfr_price + apc_price × geo_multiplier` on the facility path, `pfr_price`
alone otherwise, with missing table keys priced 0. -/
def segContribution (code_type : String) (pfr apc : List (String × ℚ))
    (geo : ℚ) (cpt : List Char) : ℚ :=
  priceOf pfr cpt + (if isFacilityType code_type then priceOf apc cpt * geo else 0)


/-- The pricing fold of `lookup_cost`, as a sum over the segment list. -/
theorem lookup_fold_eq_sum (ctStr : List Char) (pfr apc : List (String × ℚ))
    (geo : ℚ) (codes : List (List Char)) (init : ℚ) :
    codes.foldl
      (fun total cpt =>
        if containsSeq "APC".toList ctStr || containsSeq "FACILITY".toList ctStr then
          total + (priceOf pfr cpt + priceOf apc cpt * geo)
        else total + priceOf pfr cpt) init =
    init + (codes.map (fun cpt => priceOf pfr cpt +
      (if containsSeq "APC".toList ctStr || containsSeq "FACILITY".toList ctStr then
        priceOf apc cpt * geo else 0))).sum := by
  induction codes generalizing init with
  | nil => simp
  | cons c t ih =>
    rw [List.foldl_cons, ih, List.map_cons, List.sum_cons]
    split <;> ring

/-- Claim C7: `lookup_cost` is the sum of the per-segment contributions
over the semicolon-split, trimmed, non-empty code segments; an empty code
yields 0; the concrete APC example gives `100 + 50 × 1.5 = 175`; and an
item with no (truthy) raw cost and an empty/absent code gets
`unit_cost = 0` without raising. -/
theorem lookup_cost_spec :
    (∀ (code code_type : String) (pfr apc : List (String × ℚ)) (geo : ℚ),
      lookup_cost code code_type pfr apc geo =
        ((codeSegments code).map (segContribution code_type pfr apc geo)).sum) ∧
    (∀ (code_type : String) (pfr apc : List (String × ℚ)) (geo : ℚ),
      lookup_cost "" code_type pfr apc geo = 0) ∧
    lookup_cost "99213" "APC" [("99213", 100)] [("99213", 50)] (3/2) = 175 ∧
    (∀ (item : Item) (p : PatientInfo) (pfr apc : List (String × ℚ)),
      costTruthy item.cost = false → item.code.getD "" = "" →
      ∀ r, calculate_item_costs item p pfr apc = some r → r.unit_cost = 0) := by
  have hEmptyCode : ∀ (code_type : String) (pfr apc : List (String × ℚ)) (geo : ℚ),
      lookup_cost "" code_type pfr apc geo = 0 := by
    intro code_type pfr apc geo
    simp [lookup_cost]
  refine ⟨?_, hEmptyCode, by with_unfolding_all decide, ?_⟩
  · intro code code_type pfr apc geo
    rw [lookup_cost, codeSegments]
    split
    · simp
    · rw [lookup_fold_eq_sum, zero_add]
      rfl
  · intro item p pfr apc hc hcode r hr
    simp only [calculate_item_costs, hc, Bool.false_eq_true, if_false, hcode] at hr
    rw [hEmptyCode] at hr
    split at hr
    · exact absurd hr (by simp)
    · split at hr <;>
        · simp only [Option.some.injEq] at hr
          subst hr
          rfl

/-- Witness for C7's item-level conjunct at an item with absent cost and
absent code. -/
theorem lookup_cost_spec_witness :
    (costTruthy ({ frequency := some "one time" } : Item).cost = false ∧
      ({ frequency := some "one time" } : Item).code.getD "" = "" ∧
      calculate_item_costs { frequency := some "one time" } {} [] [] =
        some ⟨0, 0, 0⟩) ∧
    (⟨0, 0, 0⟩ : CostResult).unit_cost = 0 := by
  refine ⟨⟨rfl, rfl, by with_unfolding_all decide⟩, ?_⟩
  exact lookup_cost_spec.2.2.2 { frequency := some "one time" } {} [] []
    rfl rfl ⟨0, 0, 0⟩ (by with_unfolding_all decide)

/-! ## Aggregation lemmas: ordering and sums of `category_totals` -/

/-- The keys of `category_totals`, in insertion order. -/
def keysOf (cts : List (String × CategoryTotal)) : List String := cts.map Prod.fst

/-- First-seen accumulation of keys starting from `init`: append a key the
first time it appears, keep the list unchanged afterwards. -/
def firstSeenFrom (init : List String) (l : List String) : List String :=
  l.foldl (fun ks c => if c ∈ ks then ks else ks ++ [c]) init

/-- `addToCat` appends a fresh key at the end and leaves existing keys in
place. -/
theorem keysOf_addToCat (cts : List (String × CategoryTotal)) (cat : String)
    (a o : ℚ) (ci : CalculatedItem) :
    keysOf (addToCat cts cat a o ci) =
      if cat ∈ keysOf cts then keysOf cts else keysOf cts ++ [cat] := by
  induction cts with
  | nil => simp [addToCat, keysOf]
  | cons kv rest ih =>
    obtain ⟨k, t⟩ := kv
    simp only [addToCat]
    by_cases hk : k = cat
    · subst hk
      rw [if_pos rfl]
      simp [keysOf]
    · rw [if_neg hk]
      have h1 : keysOf ((k, t) :: addToCat rest cat a o ci) =
          k :: keysOf (addToCat rest cat a o ci) := rfl
      have h2 : keysOf ((k, t) :: rest) = k :: keysOf rest := rfl
      rw [h1, h2, ih]
      by_cases hmem : cat ∈ keysOf rest
      · rw [if_pos hmem, if_pos (List.mem_cons_of_mem k hmem)]
      · rw [if_neg hmem, if_neg ?_]
        · simp
        · intro hc
          rcases List.mem_cons.mp hc with hc | hc
          · exact hk hc.symm
          · exact hmem hc

/-- `addToCat` adds exactly `a` to the total of the annual sums. -/
theorem catAnnualSum_addToCat (cts : List (String × CategoryTotal))
    (cat : String) (a o : ℚ) (ci : CalculatedItem) :
    catAnnualSum (addToCat cts cat a o ci) = catAnnualSum cts + a := by
  induction cts with
  | nil => simp [addToCat, catAnnualSum]
  | cons kv rest ih =>
    obtain ⟨k, t⟩ := kv
    simp only [addToCat]
    split
    · simp only [catAnnualSum, List.map_cons, List.sum_cons]
      ring
    · simp only [catAnnualSum, List.map_cons, List.sum_cons] at ih ⊢
      rw [ih]
      ring

/-- `addToCat` adds exactly `o` to the total of the one-time sums. -/
theorem catOneTimeSum_addToCat (cts : List (String × CategoryTotal))
    (cat : String) (a o : ℚ) (ci : CalculatedItem) :
    catOneTimeSum (addToCat cts cat a o ci) = catOneTimeSum cts + o := by
  induction cts with
  | nil => simp [addToCat, catOneTimeSum]
  | cons kv rest ih =>
    obtain ⟨k, t⟩ := kv
    simp only [addToCat]
    split
    · simp only [catOneTimeSum, List.map_cons, List.sum_cons]
      ring
    · simp only [catOneTimeSum, List.map_cons, List.sum_cons] at ih ⊢
      rw [ih]
      ring

/-- Loop invariant of `processItems`: the category sums and the per-item
sums grow together. -/
theorem processItems_sums (p : PatientInfo) (pfr apc : List (String × ℚ))
    (items : List Item) :
    ∀ acc res, processItems p pfr apc items acc = some res →
      catAnnualSum res.2 + itemAnnualSum acc.1 =
        itemAnnualSum res.1 + catAnnualSum acc.2 ∧
      catOneTimeSum res.2 + itemOneTimeSum acc.1 =
        itemOneTimeSum res.1 + catOneTimeSum acc.2 := by
  induction items with
  | nil =>
    intro acc res h
    simp only [processItems, Option.some.injEq] at h
    subst h
    exact ⟨by ring, by ring⟩
  | cons item rest ih =>
    intro acc res h
    obtain ⟨cis, cts⟩ := acc
    simp only [processItems] at h
    split at h
    · exact absurd h (by simp)
    · rename_i costs hcosts
      obtain ⟨h1, h2⟩ := ih _ _ h
      have ha : itemAnnualSum (cis ++
          [⟨item, costs.unit_cost, costs.annual_cost, costs.one_time_cost⟩]) =
          itemAnnualSum cis + costs.annual_cost := by
        simp [itemAnnualSum]
      have hb : itemOneTimeSum (cis ++
          [⟨item, costs.unit_cost, costs.annual_cost, costs.one_time_cost⟩]) =
          itemOneTimeSum cis + costs.one_time_cost := by
        simp [itemOneTimeSum]
      rw [ha, catAnnualSum_addToCat] at h1
      rw [hb, catOneTimeSum_addToCat] at h2
      exact ⟨by linarith, by linarith⟩

/-- Loop invariant of `processItems`: the keys of `category_totals` are
the first-seen category keys of the processed items. -/
theorem processItems_keys (p : PatientInfo) (pfr apc : List (String × ℚ))
    (items : List Item) :
    ∀ acc res, processItems p pfr apc items acc = some res →
      keysOf res.2 = firstSeenFrom (keysOf acc.2) (items.map categoryKey) := by
  induction items with
  | nil =>
    intro acc res h
    simp only [processItems, Option.some.injEq] at h
    subst h
    rfl
  | cons item rest ih =>
    intro acc res h
    obtain ⟨cis, cts⟩ := acc
    simp only [processItems] at h
    split at h
    · exact absurd h (by simp)
    · rename_i costs hcosts
      rw [ih _ _ h, keysOf_addToCat]
      rfl

/-- Claim C8: the returned totals are the 2-decimal roundings of the
unrounded accumulator relations `lifetime_annual = total_annual × life
expectancy` and `grand_total = lifetime_annual + total_one_time`; an
empty item list yields all-zero totals with no error; a missing
geographic multiplier defaults to 1. -/
theorem grand_totals_relations :
    (∀ (wd : WorkbookData) (out : CostSummary), calculate_all_costs wd = some out →
      out.totals.total_annual = round2 (catAnnualSum out.category_totals) ∧
      out.totals.total_one_time = round2 (catOneTimeSum out.category_totals) ∧
      out.totals.lifetime_annual =
        round2 (catAnnualSum out.category_totals * out.totals.life_expectancy) ∧
      out.totals.grand_total =
        round2 (catAnnualSum out.category_totals * out.totals.life_expectancy +
          catOneTimeSum out.category_totals) ∧
      out.totals.life_expectancy = lifeExp wd.patient_info) ∧
    (∀ wd : WorkbookData, wd.items = [] →
      calculate_all_costs wd = some ⟨[], [], ⟨0, 0, 0, 0, lifeExp wd.patient_info⟩⟩) ∧
    (∀ p : PatientInfo, p.geographic_multiplier = Option.none → geoMult p = 1) := by
  refine ⟨?_, ?_, ?_⟩
  · intro wd out h
    simp only [calculate_all_costs] at h
    split at h
    · exact absurd h (by simp)
    · rename_i cis cts hpair
      simp only [Option.some.injEq] at h
      subst h
      exact ⟨rfl, rfl, rfl, rfl, rfl⟩
  · intro wd h
    simp only [calculate_all_costs, h, processItems]
    have h0 : round2 0 = 0 := by
      simp [round2]
    simp [catAnnualSum, catOneTimeSum, h0]
  · intro p h
    simp [geoMult, h]

/-- Concrete single-item workbook used by the aggregation witnesses. -/
def witnessItem : Item :=
  { category := some "Care", cost := CostValue.num 100, frequency := some "2x/year" }

/-- Concrete workbook data used by the aggregation witnesses. -/
def witnessWd : WorkbookData :=
  { patient_info := { life_expectancy := some 10 },
    items := [witnessItem], pfr_lookup := [], apc_lookup := [] }

/-- The summary `calculate_all_costs` computes for `witnessWd`. -/
def witnessOut : CostSummary :=
  ⟨[⟨witnessItem, 100, 200, 0⟩],
   [("Care", ⟨200, 0, [⟨witnessItem, 100, 200, 0⟩]⟩)],
   ⟨200, 0, 2000, 2000, 10⟩⟩

/-- An empty workbook used by the aggregation witnesses. -/
def witnessEmptyWd : WorkbookData :=
  { patient_info := { life_expectancy := some 4 },
    items := [], pfr_lookup := [], apc_lookup := [] }

/-- Witness for C8 at `witnessWd` (relations), `witnessEmptyWd` (empty
list) and a patient record with no geographic multiplier. -/
theorem grand_totals_relations_witness :
    (calculate_all_costs witnessWd = some witnessOut ∧
      witnessOut.totals.lifetime_annual =
        round2 (catAnnualSum witnessOut.category_totals *
          witnessOut.totals.life_expectancy) ∧
      witnessOut.totals.grand_total =
        round2 (catAnnualSum witnessOut.category_totals *
          witnessOut.totals.life_expectancy +
          catOneTimeSum witnessOut.category_totals)) ∧
    (witnessEmptyWd.items = [] ∧
      calculate_all_costs witnessEmptyWd =
        some ⟨[], [], ⟨0, 0, 0, 0, lifeExp witnessEmptyWd.patient_info⟩⟩) ∧
    (({} : PatientInfo).geographic_multiplier = Option.none ∧
      geoMult {} = 1) := by
  have hmain := grand_totals_relations.1 witnessWd witnessOut
    (by with_unfolding_all decide)
  refine ⟨⟨by with_unfolding_all decide, hmain.2.2.1, hmain.2.2.2.1⟩, ?_, ?_⟩
  · exact ⟨rfl, grand_totals_relations.2.1 witnessEmptyWd rfl⟩
  · exact ⟨rfl, grand_totals_relations.2.2 {} rfl⟩

/-- Claim C9: the category-level sums equal the per-item sums, for both
the annual and the one-time figures. -/
theorem category_item_sum_agreement (wd : WorkbookData) (out : CostSummary)
    (h : calculate_all_costs wd = some out) :
    catAnnualSum out.category_totals = itemAnnualSum out.items ∧
    catOneTimeSum out.category_totals = itemOneTimeSum out.items := by
  simp only [calculate_all_costs] at h
  split at h
  · exact absurd h (by simp)
  · rename_i cis cts hpair
    obtain ⟨h1, h2⟩ := processItems_sums _ _ _ _ _ _ hpair
    simp only [itemAnnualSum, itemOneTimeSum, catAnnualSum, catOneTimeSum,
      List.map_nil, List.sum_nil, add_zero] at h1 h2
    simp only [Option.some.injEq] at h
    subst h
    exact ⟨h1, h2⟩

/-- Witness for C9 at `witnessWd`. -/
theorem category_item_sum_agreement_witness :
    calculate_all_costs witnessWd = some witnessOut ∧
    (catAnnualSum witnessOut.category_totals = itemAnnualSum witnessOut.items ∧
      catOneTimeSum witnessOut.category_totals = itemOneTimeSum witnessOut.items) :=
  ⟨by with_unfolding_all decide,
   category_item_sum_agreement witnessWd witnessOut (by with_unfolding_all decide)⟩

/-- Claim C4 (counterexample): an item whose category is the empty string
is grouped under the key `""`, not `"Uncategorized"` — `item.get(
'category', 'Uncategorized')` applies its default only when the key is
absent, and the workbook parser stores `''` for empty cells. -/
theorem empty_category_not_uncategorized_cex :
    (calculate_all_costs
      { patient_info := {},
        items := [{ category := some "", cost := CostValue.num 100,
                    frequency := some "one time" }],
        pfr_lookup := [], apc_lookup := [] }).map
      (fun out => keysOf out.category_totals) = some [""] ∧
    ("" : String) ≠ "Uncategorized" := by
  refine ⟨?_, ?_⟩ <;> with_unfolding_all decide

/-- Claim C4 (amended): each item is grouped under
`item.get('category', 'Uncategorized')` — `"Uncategorized"` only when the
category key is absent, the empty string when the stored category is
empty — and the keys of `category_totals` appear in first-seen order of
the items' category keys. -/
theorem category_grouping_order (wd : WorkbookData) (out : CostSummary)
    (h : calculate_all_costs wd = some out) :
    keysOf out.category_totals = firstSeenFrom [] (wd.items.map categoryKey) ∧
    (∀ item : Item, item.category = Option.none → categoryKey item = "Uncategorized") ∧
    (∀ item : Item, item.category = some "" → categoryKey item = "") := by
  refine ⟨?_, fun item hi => by simp [categoryKey, hi],
    fun item hi => by simp [categoryKey, hi]⟩
  simp only [calculate_all_costs] at h
  split at h
  · exact absurd h (by simp)
  · rename_i cis cts hpair
    have hk := processItems_keys _ _ _ _ _ _ hpair
    simp only [Option.some.injEq] at h
    subst h
    exact hk

/-- Witness for C4 (amended) at a workbook with an absent category and a
named category. -/
theorem category_grouping_order_witness :
    calculate_all_costs
      { patient_info := {},
        items := [{ cost := CostValue.num 1, frequency := some "one time" },
                  { category := some "B", cost := CostValue.num 2,
                    frequency := some "one time" }],
        pfr_lookup := [], apc_lookup := [] } = some
      ⟨[⟨{ cost := CostValue.num 1, frequency := some "one time" }, 1, 0, 1⟩,
        ⟨{ category := some "B", cost := CostValue.num 2,
           frequency := some "one time" }, 2, 0, 2⟩],
       [("Uncategorized", ⟨0, 1,
          [⟨{ cost := CostValue.num 1, frequency := some "one time" }, 1, 0, 1⟩]⟩),
        ("B", ⟨0, 2,
          [⟨{ category := some "B", cost := CostValue.num 2,
              frequency := some "one time" }, 2, 0, 2⟩]⟩)],
       ⟨0, 3, 0, 3, 0⟩⟩ ∧
    keysOf
      [("Uncategorized", (⟨0, 1,
          [⟨{ cost := CostValue.num 1, frequency := some "one time" }, 1, 0, 1⟩]⟩ : CategoryTotal)),
       ("B", ⟨0, 2,
          [⟨{ category := some "B", cost := CostValue.num 2,
              frequency := some "one time" }, 2, 0, 2⟩]⟩)] =
      firstSeenFrom []
        ([({ cost := CostValue.num 1, frequency := some "one time" } : Item),
          { category := some "B", cost := CostValue.num 2,
            frequency := some "one time" }].map categoryKey) := by
  constructor
  · with_unfolding_all decide
  · exact (category_grouping_order
      { patient_info := {},
        items := [{ cost := CostValue.num 1, frequency := some "one time" },
                  { category := some "B", cost := CostValue.num 2,
                    frequency := some "one time" }],
        pfr_lookup := [], apc_lookup := [] }
      ⟨[⟨{ cost := CostValue.num 1, frequency := some "one time" }, 1, 0, 1⟩,
        ⟨{ category := some "B", cost := CostValue.num 2,
           frequency := some "one time" }, 2, 0, 2⟩],
       [("Uncategorized", ⟨0, 1,
          [⟨{ cost := CostValue.num 1, frequency := some "one time" }, 1, 0, 1⟩]⟩),
        ("B", ⟨0, 2,
          [⟨{ category := some "B", cost := CostValue.num 2,
              frequency := some "one time" }, 2, 0, 2⟩]⟩)],
       ⟨0, 3, 0, 3, 0⟩⟩
      (by with_unfolding_all decide)).1
